import Mathlib

/-!
Verification development for the invoice-listing pipeline in src/fetch.py
(repository RoseSalah/list-invoices).

The Python program is shallowly embedded: JSON values handled by the script
become the inductive type `Json` below (with Python truthiness, dict.get and
str() modelled explicitly), the network is an oracle function supplied as a
parameter, and every Python code path that raises an uncaught exception is
modelled by an `Option`/`crash` result.  Numbers are modelled as rationals:
every numeric value the verified statements touch is integral, where Python
ints/floats and rationals agree exactly.
-/

/-- A Python/JSON value as handled by fetch.py. -/
inductive Json where
  | null
  | bool (b : Bool)
  | num (q : ℚ)
  | str (s : String)
  | arr (elems : List Json)
  | obj (fields : List (String × Json))
  deriving Repr

mutual
/-- Python equality (==) on JSON values: structural.  (Python compares dicts
order-insensitively; the values fetch.py ever compares — invoice ids and
pagination cursors — are scalars, where the two notions agree.) -/
def jeq : Json → Json → Bool
  | .null, .null => true
  | .bool a, .bool b => a == b
  | .num a, .num b => a == b
  | .str a, .str b => a == b
  | .arr a, .arr b => jeqElems a b
  | .obj a, .obj b => jeqFields a b
  | _, _ => false

def jeqElems : List Json → List Json → Bool
  | [], [] => true
  | a :: as, b :: bs => jeq a b && jeqElems as bs
  | _, _ => false

def jeqFields : List (String × Json) → List (String × Json) → Bool
  | [], [] => true
  | (k1, v1) :: as, (k2, v2) :: bs => k1 == k2 && jeq v1 v2 && jeqFields as bs
  | _, _ => false
end

mutual
theorem jeq_refl : ∀ a : Json, jeq a a = true
  | .null => rfl
  | .bool b => by simp [jeq]
  | .num q => by simp [jeq]
  | .str s => by simp [jeq]
  | .arr l => by simp [jeq, jeqElems_refl l]
  | .obj l => by simp [jeq, jeqFields_refl l]

theorem jeqElems_refl : ∀ l : List Json, jeqElems l l = true
  | [] => rfl
  | a :: as => by simp [jeqElems, jeq_refl a, jeqElems_refl as]

theorem jeqFields_refl : ∀ l : List (String × Json), jeqFields l l = true
  | [] => rfl
  | (k, v) :: rest => by simp [jeqFields, jeq_refl v, jeqFields_refl rest]
end

mutual
theorem jeq_sound : ∀ a b : Json, jeq a b = true → a = b
  | .null, .null, _ => rfl
  | .bool a, .bool b, h => by simp [jeq] at h; rw [h]
  | .num a, .num b, h => by simp [jeq] at h; rw [h]
  | .str a, .str b, h => by simp [jeq] at h; rw [h]
  | .arr a, .arr b, h => by rw [jeqElems_sound a b (by simpa [jeq] using h)]
  | .obj a, .obj b, h => by rw [jeqFields_sound a b (by simpa [jeq] using h)]
  | .null, .bool _, h => Bool.noConfusion h
  | .null, .num _, h => Bool.noConfusion h
  | .null, .str _, h => Bool.noConfusion h
  | .null, .arr _, h => Bool.noConfusion h
  | .null, .obj _, h => Bool.noConfusion h
  | .bool _, .null, h => Bool.noConfusion h
  | .bool _, .num _, h => Bool.noConfusion h
  | .bool _, .str _, h => Bool.noConfusion h
  | .bool _, .arr _, h => Bool.noConfusion h
  | .bool _, .obj _, h => Bool.noConfusion h
  | .num _, .null, h => Bool.noConfusion h
  | .num _, .bool _, h => Bool.noConfusion h
  | .num _, .str _, h => Bool.noConfusion h
  | .num _, .arr _, h => Bool.noConfusion h
  | .num _, .obj _, h => Bool.noConfusion h
  | .str _, .null, h => Bool.noConfusion h
  | .str _, .bool _, h => Bool.noConfusion h
  | .str _, .num _, h => Bool.noConfusion h
  | .str _, .arr _, h => Bool.noConfusion h
  | .str _, .obj _, h => Bool.noConfusion h
  | .arr _, .null, h => Bool.noConfusion h
  | .arr _, .bool _, h => Bool.noConfusion h
  | .arr _, .num _, h => Bool.noConfusion h
  | .arr _, .str _, h => Bool.noConfusion h
  | .arr _, .obj _, h => Bool.noConfusion h
  | .obj _, .null, h => Bool.noConfusion h
  | .obj _, .bool _, h => Bool.noConfusion h
  | .obj _, .num _, h => Bool.noConfusion h
  | .obj _, .str _, h => Bool.noConfusion h
  | .obj _, .arr _, h => Bool.noConfusion h

theorem jeqElems_sound : ∀ a b : List Json, jeqElems a b = true → a = b
  | [], [], _ => rfl
  | a :: as, b :: bs, h => by
      have h1 : jeq a b = true ∧ jeqElems as bs = true := by simpa [jeqElems] using h
      rw [jeq_sound a b h1.1, jeqElems_sound as bs h1.2]
  | [], _ :: _, h => Bool.noConfusion h
  | _ :: _, [], h => Bool.noConfusion h

theorem jeqFields_sound :
    ∀ a b : List (String × Json), jeqFields a b = true → a = b
  | [], [], _ => rfl
  | (k1, v1) :: as, (k2, v2) :: bs, h => by
      have h1 : k1 = k2 ∧ jeq v1 v2 = true ∧ jeqFields as bs = true := by
        simpa [jeqFields, Bool.and_assoc] using h
      rw [h1.1, jeq_sound v1 v2 h1.2.1, jeqFields_sound as bs h1.2.2]
  | [], _ :: _, h => Bool.noConfusion h
  | _ :: _, [], h => Bool.noConfusion h
end

instance : DecidableEq Json := fun a b =>
  if h : jeq a b = true then .isTrue (jeq_sound a b h)
  else .isFalse (fun e => h (by cases e; exact jeq_refl a))

/-- Python truthiness: None, False, 0, empty string and empty collections are
falsy, everything else is truthy. -/
def Json.truthy : Json → Bool
  | .null => false
  | .bool b => b
  | .num q => decide (q ≠ 0)
  | .str s => decide (s ≠ "")
  | .arr l => !l.isEmpty
  | .obj l => !l.isEmpty

/-- First binding of a key in an association list (Python dicts have unique
keys, so first-match lookup is exact), defaulting to null like dict.get. -/
def lookupField : List (String × Json) → String → Json
  | [], _ => .null
  | (k, v) :: rest, key => if k = key then v else lookupField rest key

/-- Python `d.get(key)` with its default of None.  fetch.py only calls .get
on values it holds as dicts; every call site of this model is guarded by a
match on `Json.obj`, and the AttributeError raised by .get on a non-dict is
modelled at those guards, not here. -/
def Json.getD : Json → String → Json
  | .obj fields, key => lookupField fields key
  | _, _ => .null

/-- Python `a or b`: the left operand when it is truthy, else the right. -/
def orJ (a b : Json) : Json := if a.truthy then a else b

/-- Numeric view of a Python value: ints/floats are rationals and bools are
0/1 (bool is an int subtype in Python); on anything else, Python arithmetic
and numeric formatting raise, which callers model as a crash. -/
def toQ? : Json → Option ℚ
  | .num q => some q
  | .bool b => some (if b then 1 else 0)
  | _ => none

/-- Decimal digits of a natural number, most significant first, accumulated
onto `acc`; `fuel` bounds the recursion exactly as in core Nat.toDigits. -/
def natChars (fuel n : Nat) (acc : List Char) : List Char :=
  match fuel with
  | 0 => acc
  | f + 1 =>
    if n / 10 = 0 then Nat.digitChar (n % 10) :: acc
    else natChars f (n / 10) (Nat.digitChar (n % 10) :: acc)

/-- Python str() of a natural number. -/
def natStr (n : Nat) : String := String.mk (natChars (n + 1) n [])

/-- Python str() of an integer. -/
def intStr (i : ℤ) : String :=
  if i < 0 then "-" ++ natStr i.natAbs else natStr i.natAbs

/-- Printing of a Json number.  Integral values print exactly as Python ints
do; a non-integral value prints as an exact fraction, a stand-in for Python
float printing that no verified statement relies on. -/
def ratStr (q : ℚ) : String :=
  if q.den = 1 then intStr q.num else intStr q.num ++ "/" ++ natStr q.den

mutual
/-- Python str()/repr() of a value (`rm` true selects repr, used for elements
of containers, where strings gain quotes). -/
def jout (rm : Bool) : Json → String
  | .null => "None"
  | .bool b => if b then "True" else "False"
  | .num q => ratStr q
  | .str s => if rm then "'" ++ s ++ "'" else s
  | .arr l => "[" ++ joinElems l ++ "]"
  | .obj fs => "\x7b" ++ joinFields fs ++ "\x7d"

def joinElems : List Json → String
  | [] => ""
  | [j] => jout true j
  | j :: rest => jout true j ++ ", " ++ joinElems rest

def joinFields : List (String × Json) → String
  | [] => ""
  | [(k, v)] => "'" ++ k ++ "': " ++ jout true v
  | (k, v) :: rest => "'" ++ k ++ "': " ++ jout true v ++ ", " ++ joinFields rest
end

/-- Python str() of a value, as csv.writer applies it to every cell. -/
def jstr : Json → String := jout false

theorem jstr_str (s : String) : jstr (.str s) = s := by
  show jout false (.str s) = s
  rw [jout]
  simp

/-- 100 q rounded to the nearest integer, ties to even: the rounding of
Python .2f formatting, modelled over exact rationals (the verified statements
only format values that are exact in both binary floats and rationals).
Computed on the numerator and denominator with integer floor division so that
it evaluates inside the kernel. -/
def roundHalfEven100 (q : ℚ) : ℤ :=
  let n := q.num * 100
  let d : ℤ := (q.den : ℤ)
  let f := Int.fdiv n d
  let r := Int.fmod n d
  if 2 * r < d then f
  else if d < 2 * r then f + 1
  else if f % 2 = 0 then f else f + 1

/-- Two decimal digits, zero padded on the left. -/
def pad2 (n : Nat) : String := (if n < 10 then "0" else "") ++ natStr n

/-- Renders a count of hundredths as a fixed two-decimal string. -/
def fmt2c (c : ℤ) : String :=
  (if c < 0 then "-" else "") ++ natStr (c.natAbs / 100) ++ "." ++ pad2 (c.natAbs % 100)

/-- Python format spec .2f on a numeric value. -/
def fmt2 (q : ℚ) : String := fmt2c (roundHalfEven100 q)

/-- Python true division of two exact rationals, written on numerators and
denominators (Rat.divInt) so that it evaluates inside the kernel; equal to
ordinary rational division whenever the divisor is non-zero
(theorem pyDivQ_eq_div below).  Callers guard the divisor. -/
def pyDivQ (a b : ℚ) : ℚ := Rat.divInt (a.num * (b.den : ℤ)) ((a.den : ℤ) * b.num)

theorem pyDivQ_eq_div (a b : ℚ) (h : b ≠ 0) : pyDivQ a b = a / b := by
  have hbn : (b.num : ℚ) ≠ 0 := by
    exact_mod_cast Rat.num_ne_zero.mpr h
  have had : ((a.den : ℚ)) ≠ 0 := by
    exact_mod_cast a.den_ne_zero
  have hbd : ((b.den : ℚ)) ≠ 0 := by
    exact_mod_cast b.den_ne_zero
  have ha : (a.num : ℚ) = a * (a.den : ℚ) := by
    have h2 := Rat.num_div_den a
    rwa [div_eq_iff had] at h2
  have hb : (b.num : ℚ) = b * (b.den : ℚ) := by
    have h2 := Rat.num_div_den b
    rwa [div_eq_iff hbd] at h2
  rw [pyDivQ, Rat.divInt_eq_div]
  push_cast
  field_simp
  rw [ha, hb]
  ring

theorem length_pos_of_ne_empty (s : String) (h : s ≠ "") : 0 < s.length := by
  cases s with
  | mk data =>
    cases data with
    | nil => exact absurd rfl h
    | cons c cs => simp [String.length]

theorem ne_empty_of_length_pos (s : String) (h : 0 < s.length) : s ≠ "" := by
  intro he
  rw [he] at h
  exact absurd h (by decide)

theorem append_ne_empty_right (a b : String) (hb : b ≠ "") : a ++ b ≠ "" := by
  apply ne_empty_of_length_pos
  rw [String.length_append]
  have h1 := length_pos_of_ne_empty b hb
  omega

theorem append_ne_empty_left (a b : String) (ha : a ≠ "") : a ++ b ≠ "" := by
  apply ne_empty_of_length_pos
  rw [String.length_append]
  have h1 := length_pos_of_ne_empty a ha
  omega

theorem natChars_length_le : ∀ (fuel n : Nat) (acc : List Char),
    acc.length ≤ (natChars fuel n acc).length := by
  intro fuel
  induction fuel with
  | zero => intro n acc; simp [natChars]
  | succ f ih =>
    intro n acc
    rw [natChars]
    split
    · simp
    · exact le_trans (by simp) (ih (n / 10) (Nat.digitChar (n % 10) :: acc))

theorem one_le_natChars_length (n : Nat) : 1 ≤ (natChars (n + 1) n []).length := by
  rw [natChars]
  split
  · simp
  · calc (1 : Nat) = ([Nat.digitChar (n % 10)] : List Char).length := rfl
      _ ≤ _ := natChars_length_le _ _ _

theorem natStr_ne_empty (n : Nat) : natStr n ≠ "" := by
  apply ne_empty_of_length_pos
  show 0 < (natChars (n + 1) n []).length
  have h := one_le_natChars_length n
  omega

theorem intStr_ne_empty (i : ℤ) : intStr i ≠ "" := by
  rw [intStr]
  split
  · exact append_ne_empty_right _ _ (natStr_ne_empty i.natAbs)
  · exact natStr_ne_empty i.natAbs

theorem ratStr_ne_empty (q : ℚ) : ratStr q ≠ "" := by
  rw [ratStr]
  split
  · exact intStr_ne_empty q.num
  · exact append_ne_empty_right _ _ (natStr_ne_empty q.den)

theorem pad2_ne_empty (n : Nat) : pad2 n ≠ "" :=
  append_ne_empty_right _ _ (natStr_ne_empty n)

theorem fmt2c_ne_empty (c : ℤ) : fmt2c c ≠ "" :=
  append_ne_empty_right _ _ (pad2_ne_empty _)

theorem fmt2_ne_empty (q : ℚ) : fmt2 q ≠ "" := fmt2c_ne_empty _

theorem jstr_ne_empty_of_truthy : ∀ j : Json, j.truthy = true → jstr j ≠ ""
  | .null, h => by simp [Json.truthy] at h
  | .bool b, h => by
      have hb : b = true := by simpa [Json.truthy] using h
      subst hb
      show jout false (.bool true) ≠ ""
      rw [jout]
      exact ne_empty_of_length_pos _ (by decide)
  | .num q, h => by
      show jout false (.num q) ≠ ""
      rw [jout]
      exact ratStr_ne_empty q
  | .str s, h => by
      have hs : s ≠ "" := by simpa [Json.truthy] using h
      show jout false (.str s) ≠ ""
      rw [jout]
      simpa using hs
  | .arr l, h => by
      show jout false (.arr l) ≠ ""
      rw [jout]
      exact append_ne_empty_right _ _ (ne_empty_of_length_pos _ (by decide))
  | .obj fs, h => by
      show jout false (.obj fs) ≠ ""
      rw [jout]
      exact append_ne_empty_right _ _ (ne_empty_of_length_pos _ (by decide))

example : fmt2 10 = "10.00" := by decide
example : fmt2 0 = "0.00" := by decide
example : fmt2 30 = "30.00" := by decide
example : fmt2 (Rat.divInt 5 2) = "2.50" := by decide
example : pyDivQ 30 3 = 10 := by decide
example : pyDivQ 0 1 = 0 := by decide
example : jstr (.num 1) = "1" := by decide
example : jstr (.num 3) = "3" := by decide
example : orJ .null (.num 1) = .num 1 := by decide
example : orJ (.num 3) (.num 1) = .num 3 := by decide
example : Json.truthy (.num 30) = true := by decide
example : Json.truthy (.str "") = false := by decide
example : jeq (.str "ab") (.str "ab") = true := by decide

/-! ## AuthenticatedClient: save_tokens / refresh_access_token / api_get -/

/-- An HTTP response as seen through the requests library: status code and
parsed JSON body.  (Bodies that are not JSON are out of scope: every verified
statement supplies JSON bodies.) -/
structure Response where
  status : Nat
  body : Json
  deriving DecidableEq, Repr

/-- requests `Response.ok`: true exactly for status codes below 400. -/
def Response.isOk (r : Response) : Bool := r.status < 400

/-- Outcome of one HTTP GET at the requests level: a response, or a
network-level exception (Timeout, ConnectionError). -/
inductive HttpOut where
  | ok (r : Response)
  | err
  deriving DecidableEq, Repr

/-- The module-level ACCESS_TOKEN / REFRESH_TOKEN pair of fetch.py. -/
structure Tokens where
  access : String
  refresh : Option String
  deriving DecidableEq, Repr

/-- The network as seen by requests.get: a response for each url and bearer
token.  (Headers other than Authorization, params and timeout are constants
in fetch.py and are absorbed into the oracle.) -/
abbrev GetOracle := String → String → HttpOut

/-- The token endpoint as seen by refresh_access_token: given the refresh
token it either fails (connection error, or raise_for_status on a non-2xx
reply — both uncaught exceptions, modelled none) or returns the JSON
access_token together with the optional rotated refresh_token. -/
abbrev RefreshOracle := String → Option (String × Option String)

/-- fetch.py refresh_access_token: raises (none) when no refresh token is
held, posts grant_type refresh_token otherwise, and on success installs the
new access token, keeping the old refresh token when the reply does not
rotate it (the .env persistence side effect carries no further state). -/
def refresh_access_token (oracle : RefreshOracle) (tk : Tokens) : Option Tokens :=
  match tk.refresh with
  | none => none
  | some rt =>
    match oracle rt with
    | none => none
    | some (newAccess, newRefresh) => some ⟨newAccess, some (newRefresh.getD rt)⟩

/-- fetch.py api_get url resolution: absolute urls pass through, anything
else is appended to BASE_URL. -/
def resolveUrl (base url : String) : String :=
  if url.startsWith "http://" || url.startsWith "https://" then url else base ++ url

/-- Everything observable about one api_get call: the returned response
(none when an exception escaped), the final token state, the number of GET
requests issued against the API, and the number of completed token
refreshes. -/
structure ApiGetResult where
  resp : Option Response
  tokens : Tokens
  getCalls : Nat
  refreshes : Nat
  deriving DecidableEq, Repr

/-- fetch.py api_get: one authenticated GET; on a 401 response it refreshes
the token once and retries the identical request once with the new token,
returning whatever the second attempt yields; any other status is returned
directly, and network errors or refresh failures propagate as exceptions. -/
def api_get (doGet : GetOracle) (oracle : RefreshOracle) (base : String)
    (tk : Tokens) (url : String) : ApiGetResult :=
  match doGet (resolveUrl base url) tk.access with
  | .err => ⟨none, tk, 1, 0⟩
  | .ok r =>
    if r.status = 401 then
      match refresh_access_token oracle tk with
      | none => ⟨none, tk, 1, 0⟩
      | some tk2 =>
        match doGet (resolveUrl base url) tk2.access with
        | .err => ⟨none, tk2, 2, 1⟩
        | .ok r2 => ⟨some r2, tk2, 2, 1⟩
    else ⟨some r, tk, 1, 0⟩

/-! ## ContactResolver: get_contact_name -/

/-- The lru_cache of get_contact_name: resolved names keyed by the literal
contact id value. -/
abbrev ContactCache := List (Json × String)

/-- Cache lookup by Python equality on the key. -/
def lookupCache : ContactCache → Json → Option String
  | [], _ => none
  | (k, v) :: rest, cid => if jeq k cid then some v else lookupCache rest cid

/-- Everything observable about one get_contact_name call: the returned name
(none when an exception escaped), the cache afterwards, and how many api_get
network calls were made. -/
structure ContactOut where
  resolved : Option String
  cache : ContactCache
  netCalls : Nat
  deriving DecidableEq, Repr

/-- The api_get call made for a contact id, abstracted to its outcome: none
when the call raised (network error with failed refresh), some response
otherwise. -/
abbrev ContactApi := Json → Option Response

/-- fetch.py get_contact_name, with its lru_cache made explicit: a cache hit
returns the memoized string with no network call; otherwise an empty or
absent id resolves to the em-dash placeholder without touching the network;
otherwise one api_get is issued and a non-ok response yields the id fallback,
an ok response the name field, else display_name, else the id fallback.
A raised exception (none) caches nothing. -/
def get_contact_name (api : ContactApi) (cache : ContactCache) (cid : Json) :
    ContactOut :=
  match lookupCache cache cid with
  | some v => ⟨some v, cache, 0⟩
  | none =>
    if cid.truthy = false then ⟨some "—", (cid, "—") :: cache, 0⟩
    else
      match api cid with
      | none => ⟨none, cache, 1⟩
      | some resp =>
        if resp.isOk = false then
          ⟨some ("id:" ++ jstr cid), (cid, "id:" ++ jstr cid) :: cache, 1⟩
        else
          match resp.body with
          | .obj _ =>
            let v := jstr (orJ (resp.body.getD "name")
              (orJ (resp.body.getD "display_name") (.str ("id:" ++ jstr cid))))
            ⟨some v, (cid, v) :: cache, 1⟩
          | _ => ⟨none, cache, 1⟩


/-- C6: for a single logical api_get call at most 2 HTTP GET requests are
issued; the second request happens exactly when the first response is a 401
and the token refresh succeeds, in which case exactly one refresh is
performed and the identical request is retried exactly once with the new
token, its response — even another 401 — returned to the caller as-is; any
status other than 401 on the first response is returned directly with no
retry. -/
theorem c6_api_get_retry_discipline (doGet : GetOracle) (oracle : RefreshOracle)
    (base : String) (tk : Tokens) (url : String) :
    (api_get doGet oracle base tk url).getCalls ≤ 2
    ∧ ((api_get doGet oracle base tk url).getCalls = 2 ↔
        (∃ r, doGet (resolveUrl base url) tk.access = .ok r ∧ r.status = 401)
          ∧ (refresh_access_token oracle tk).isSome = true)
    ∧ (∀ r, doGet (resolveUrl base url) tk.access = .ok r → r.status ≠ 401 →
        api_get doGet oracle base tk url = ⟨some r, tk, 1, 0⟩)
    ∧ (∀ r tk2 r2, doGet (resolveUrl base url) tk.access = .ok r →
        r.status = 401 → refresh_access_token oracle tk = some tk2 →
        doGet (resolveUrl base url) tk2.access = .ok r2 →
        api_get doGet oracle base tk url = ⟨some r2, tk2, 2, 1⟩) := by
  refine ⟨?_, ?_, ?_, ?_⟩
  · unfold api_get
    repeat' split
    all_goals simp
  · cases h1 : doGet (resolveUrl base url) tk.access with
    | err => simp [api_get, h1]
    | ok r =>
      by_cases h401 : r.status = 401
      · cases h2 : refresh_access_token oracle tk with
        | none => simp [api_get, h1, h401, h2]
        | some tk2 =>
          cases h3 : doGet (resolveUrl base url) tk2.access with
          | err => simp [api_get, h1, h401, h2, h3]
          | ok r2 => simp [api_get, h1, h401, h2, h3]
      · simp [api_get, h1, h401]
  · intro r hr hne
    simp [api_get, hr, hne]
  · intro r tk2 r2 hr h401 hrefresh hr2
    simp [api_get, hr, h401, hrefresh, hr2]

/-- Witness for C6 at a concrete oracle: the first GET yields 401, the
refresh succeeds, and the retry yields a second 401, which is returned
as-is after exactly 2 GET requests and one refresh. -/
theorem c6_api_get_retry_discipline_witness :
    api_get
      (fun _ t => if t = "oldTok" then .ok ⟨401, .null⟩ else .ok ⟨401, .str "second"⟩)
      (fun _ => some ("newTok", none)) "https://api" ⟨"oldTok", some "rt"⟩ "/invoices/"
      = ⟨some ⟨401, .str "second"⟩, ⟨"newTok", some "rt"⟩, 2, 1⟩ := by
  have h := c6_api_get_retry_discipline
    (fun _ t => if t = "oldTok" then .ok ⟨401, .null⟩ else .ok ⟨401, .str "second"⟩)
    (fun _ => some ("newTok", none)) "https://api" ⟨"oldTok", some "rt"⟩ "/invoices/"
  exact h.2.2.2 ⟨401, .null⟩ ⟨"newTok", some "rt"⟩ ⟨401, .str "second"⟩
    (by decide) rfl (by decide) (by decide)

/-- C8: get_contact_name returns the em-dash placeholder for an empty or
absent contact id without any network call; for a truthy uncached id it
issues exactly one network call and returns the name field, falling back to
display_name, falling back to the id fallback string, the latter also used
for any non-success response; and every result is memoized by the literal
id, so a second call with the same id returns the same string with zero
additional network calls. -/
theorem c8_get_contact_name_spec (api : ContactApi) (cache : ContactCache)
    (cid : Json) :
    (cid.truthy = false → (get_contact_name api cache cid).netCalls = 0
       ∧ (lookupCache cache cid = none →
            get_contact_name api cache cid = ⟨some "—", (cid, "—") :: cache, 0⟩))
    ∧ (∀ resp, lookupCache cache cid = none → cid.truthy = true →
         api cid = some resp → resp.isOk = false →
         get_contact_name api cache cid =
           ⟨some ("id:" ++ jstr cid), (cid, "id:" ++ jstr cid) :: cache, 1⟩)
    ∧ (∀ resp fs, lookupCache cache cid = none → cid.truthy = true →
         api cid = some resp → resp.isOk = true → resp.body = .obj fs →
         ((resp.body.getD "name").truthy = true →
            get_contact_name api cache cid =
              ⟨some (jstr (resp.body.getD "name")),
               (cid, jstr (resp.body.getD "name")) :: cache, 1⟩)
         ∧ ((resp.body.getD "name").truthy = false →
              (resp.body.getD "display_name").truthy = true →
              get_contact_name api cache cid =
                ⟨some (jstr (resp.body.getD "display_name")),
                 (cid, jstr (resp.body.getD "display_name")) :: cache, 1⟩)
         ∧ ((resp.body.getD "name").truthy = false →
              (resp.body.getD "display_name").truthy = false →
              get_contact_name api cache cid =
                ⟨some ("id:" ++ jstr cid), (cid, "id:" ++ jstr cid) :: cache, 1⟩))
    ∧ (∀ v cache2 k, get_contact_name api cache cid = ⟨some v, cache2, k⟩ →
         get_contact_name api cache2 cid = ⟨some v, cache2, 0⟩) := by
  refine ⟨?_, ?_, ?_, ?_⟩
  · intro hfalsy
    cases hc : lookupCache cache cid with
    | some v =>
      constructor
      · simp [get_contact_name, hc]
      · intro hnone
        exact absurd hnone (by simp)
    | none =>
      constructor
      · simp [get_contact_name, hc, hfalsy]
      · intro _
        simp [get_contact_name, hc, hfalsy]
  · intro resp hc htruthy hapi hnotok
    simp [get_contact_name, hc, htruthy, hapi, hnotok]
  · intro resp fs hc htruthy hapi hok hbody
    refine ⟨?_, ?_, ?_⟩
    · intro hname
      rw [hbody] at hname
      simp [get_contact_name, hc, htruthy, hapi, hok, hbody, orJ, hname]
    · intro hname hdisp
      rw [hbody] at hname hdisp
      simp [get_contact_name, hc, htruthy, hapi, hok, hbody, orJ, hname, hdisp]
    · intro hname hdisp
      rw [hbody] at hname hdisp
      simp [get_contact_name, hc, htruthy, hapi, hok, hbody, orJ, hname, hdisp,
        jstr_str]
  · intro v cache2 k hcall
    rw [get_contact_name] at hcall
    cases hc : lookupCache cache cid with
    | some v0 =>
      rw [hc] at hcall
      simp only [ContactOut.mk.injEq, Option.some.injEq] at hcall
      obtain ⟨hv, hcache, hk⟩ := hcall
      subst hv
      subst hcache
      simp [get_contact_name, hc]
    | none =>
      rw [hc] at hcall
      by_cases htruthy : cid.truthy = true
      · cases hapi : api cid with
        | none => simp [htruthy, hapi] at hcall
        | some resp =>
          cases hok : resp.isOk with
          | false =>
            simp [htruthy, hapi, hok] at hcall
            obtain ⟨hv, hcache, hk⟩ := hcall
            subst hv
            subst hcache
            simp [get_contact_name, lookupCache, jeq_refl]
          | true =>
            cases hbody : resp.body with
            | obj fs =>
              simp [htruthy, hapi, hok, hbody] at hcall
              obtain ⟨hv, hcache, hk⟩ := hcall
              subst hv
              subst hcache
              simp [get_contact_name, lookupCache, jeq_refl]
            | null => simp [htruthy, hapi, hok, hbody] at hcall
            | bool b => simp [htruthy, hapi, hok, hbody] at hcall
            | num q => simp [htruthy, hapi, hok, hbody] at hcall
            | str s => simp [htruthy, hapi, hok, hbody] at hcall
            | arr l => simp [htruthy, hapi, hok, hbody] at hcall
      · have hf : cid.truthy = false := by
          cases hx : cid.truthy
          · rfl
          · exact absurd hx htruthy
        simp [hf] at hcall
        obtain ⟨hv, hcache, hk⟩ := hcall
        subst hv
        subst hcache
        simp [get_contact_name, lookupCache, jeq_refl]

/-- Witness for C8 at concrete inputs: a fresh id resolves over the network
and is cached; the repeated call is answered from the cache with zero
network calls; a null id yields the em-dash with zero network calls. -/
theorem c8_get_contact_name_spec_witness :
    get_contact_name (fun _ => some ⟨200, .obj [("name", .str "Acme")]⟩) []
      (.str "c1") = ⟨some "Acme", [(.str "c1", "Acme")], 1⟩
    ∧ get_contact_name (fun _ => some ⟨200, .obj [("name", .str "Acme")]⟩)
      [(.str "c1", "Acme")] (.str "c1") = ⟨some "Acme", [(.str "c1", "Acme")], 0⟩
    ∧ get_contact_name (fun _ => some ⟨200, .obj [("name", .str "Acme")]⟩) []
      .null = ⟨some "—", [(.null, "—")], 0⟩ := by
  have h := c8_get_contact_name_spec
    (fun _ => some ⟨200, .obj [("name", .str "Acme")]⟩) [] (.str "c1")
  have h0 := c8_get_contact_name_spec
    (fun _ => some ⟨200, .obj [("name", .str "Acme")]⟩) [] (.null)
  refine ⟨?_, ?_, ?_⟩
  · have h3 := (h.2.2.1 ⟨200, .obj [("name", .str "Acme")]⟩
      [("name", .str "Acme")] rfl (by decide) rfl rfl rfl).1 (by decide)
    exact h3.trans (by decide)
  · exact h.2.2.2 "Acme" [(.str "c1", "Acme")] 1 (by decide)
  · exact ((h0.1 rfl).2 rfl).trans (by decide)

/-! ## RecordNormalizer and Exporter: the row shape of list_invoices -/

/-- One exported row, exactly the cells appended to csv_rows by
list_invoices (cells are the strings csv.writer emits: raw values pass
through Python str()). -/
structure ExportRow where
  invoice_number : String
  date : String
  customer : String
  status : String
  description : String
  unit_price : String
  qty : String
  line_total : String
  deriving DecidableEq, Repr

/-- Python str.lower(), character-wise (the statuses compared against are
ASCII, where this matches Python exactly). -/
def pyLower (s : String) : String := String.mk (s.data.map Char.toLower)

/-- Python format with a plain width spec (as in the console prints of
list_invoices) succeeds for str, int, float and bool values and raises
TypeError for anything else, which crashes the run. -/
def widthFormatOk : Json → Bool
  | .str _ => true
  | .num _ => true
  | .bool _ => true
  | _ => false

/-- Line 184 of fetch.py: qty is the quantity field with a truthiness
default of 1 — no fallback to a qty field. -/
def qtyOf (item : Json) : Json := orJ (item.getD "quantity") (.num 1)

/-- Line 185 of fetch.py: line_amount is the line_amount field with a
truthiness default of 0 — no fallback to amount or total fields. -/
def lineAmountOf (item : Json) : Json := orJ (item.getD "line_amount") (.num 0)

/-- Python `la / qty` for a numeric dividend: none models the raised
TypeError when qty is not numeric and the raised ZeroDivisionError when it
is numerically zero. -/
def jdivQ (la : ℚ) (qty : Json) : Option ℚ :=
  match toQ? qty with
  | none => none
  | some q => if q = 0 then none else some (pyDivQ la q)

/-- Lines 182-204 of fetch.py: normalize one line item of a kept invoice
into its csv row.  none models an uncaught exception: a non-dict item, a
non-str description (the console format spec "<20.20" rejects other
types), a non-numeric line_amount (the division and the ".2f" formats
reject it), a non-numeric or zero qty at the division. -/
def processLineItem (invNo date : Json) (customer status : String)
    (item : Json) : Option ExportRow :=
  match item with
  | .obj _ =>
    match orJ (item.getD "description") (orJ (item.getD "name") (.str "-")) with
    | .str ds =>
      match toQ? (lineAmountOf item) with
      | none => none
      | some la =>
        match (if (qtyOf item).truthy then jdivQ la (qtyOf item) else some la) with
        | none => none
        | some up =>
          some ⟨jstr invNo, jstr date, customer, status, ds, fmt2 up,
            jstr (qtyOf item), fmt2 la⟩
    | _ => none
  | _ => none

def processLineItems (invNo date : Json) (customer status : String) :
    List Json → Option (List ExportRow)
  | [] => some []
  | item :: rest =>
    match processLineItem invNo date customer status item with
    | none => none
    | some row =>
      match processLineItems invNo date customer status rest with
      | none => none
      | some rows => some (row :: rows)

/-- Python iteration over the extracted invoice collection (or a line_items
value): lists yield elements, dicts their keys, strings their characters;
anything else raises TypeError (none). -/
def iterElems : Json → Option (List Json)
  | .arr l => some l
  | .obj fs => some (fs.map fun kv => Json.str kv.1)
  | .str s => some (s.data.map fun c => Json.str (String.mk [c]))
  | _ => none

/-- Lines 157-161 of fetch.py: inv_no falls back from invoice_number to
number to the empty string. -/
def invNoOf (inv : Json) : Json :=
  orJ (inv.getD "invoice_number") (orJ (inv.getD "number") (.str ""))

/-- Line 162 of fetch.py: date falls back from invoice_date to date to the
empty string. -/
def dateOf (inv : Json) : Json :=
  orJ (inv.getD "invoice_date") (orJ (inv.getD "date") (.str ""))

/-- Line 164 of fetch.py: the contact id is contact, falling back to
contact_id. -/
def contactIdOf (inv : Json) : Json :=
  orJ (inv.getD "contact") (inv.getD "contact_id")

/-- Line 165 of fetch.py: the customer cell — resolved over the network for
a truthy contact id, the em-dash placeholder otherwise. -/
def customerOf (contact : Json → String) (inv : Json) : String :=
  if (contactIdOf inv).truthy then contact (contactIdOf inv) else "—"

/-- Line 167 of fetch.py: the status cell is the raw status string, or a
dash when it is empty. -/
def statusCellOf (statusRaw : String) : String :=
  if statusRaw = "" then "-" else statusRaw

/-- Lines 145-204 of fetch.py: process one invoice record of a fetched
page.  Records with a falsy id are skipped; records whose lower-cased
status is deleted, delete or archived are skipped; otherwise the record
contributes one placeholder row (no truthy line_items) or one row per line
item, and increments the kept counter by one.  The customer cell comes
from get_contact_name, abstracted here as the total function `contact`
(its own behavior is modelled and verified separately). -/
def processInv (contact : Json → String) (inv : Json) :
    Option (List ExportRow × Nat) :=
  match inv with
  | .obj _ =>
    if (inv.getD "id").truthy = false then some ([], 0)
    else
      match orJ (inv.getD "status") (.str "") with
      | .str statusRaw =>
        if pyLower statusRaw = "deleted" ∨ pyLower statusRaw = "delete"
            ∨ pyLower statusRaw = "archived" then some ([], 0)
        else
          if (widthFormatOk (invNoOf inv) && widthFormatOk (dateOf inv)) = false
            then none
          else
            if (inv.getD "line_items").truthy = false then
              some ([⟨jstr (invNoOf inv), jstr (dateOf inv),
                customerOf contact inv, statusCellOf statusRaw,
                "-", "", "", ""⟩], 1)
            else
              match iterElems (inv.getD "line_items") with
              | none => none
              | some items =>
                match processLineItems (invNoOf inv) (dateOf inv)
                    (customerOf contact inv) (statusCellOf statusRaw) items with
                | none => none
                | some rows => some (rows, 1)
      | _ => none
  | _ => none

def processInvoices (contact : Json → String) :
    List Json → Option (List ExportRow × Nat)
  | [] => some ([], 0)
  | inv :: rest =>
    match processInv contact inv with
    | none => none
    | some (rows, kept) =>
      match processInvoices contact rest with
      | none => none
      | some (rows2, kept2) => some (rows ++ rows2, kept + kept2)

/-! ## PaginationEngine: the fetch loop of list_invoices -/

/-- A page fetch issued by the loop: either api_get on the cursor url, or
api_get on "/invoices/" with the page number (page_size is a constant and
is absorbed into the oracle). -/
inductive Request where
  | url (u : String)
  | page (n : Nat)
  deriving DecidableEq, Repr

/-- Outcome of one page fetch: a response, or a network-level exception
(TransportError), which fetch.py does not catch. -/
inductive FetchResult where
  | ok (r : Response)
  | transportError
  deriving DecidableEq, Repr

/-- The remote API as the loop sees it. -/
abbrev PageApi := Request → FetchResult

/-- The loop state of list_invoices: csv_rows, total_from_api, total_kept,
page, next_url, prev_next, seen_ids.  The Python set seen_ids is modelled
as the list of added elements: only membership is ever consulted, and
jeq-membership in the list coincides with Python set membership.  The
extra field `fetches` is a ghost counter of issued page fetches, present
only so that termination bounds can be stated; no branch reads it. -/
structure LoopState where
  csvRows : List ExportRow
  totalFromApi : Nat
  totalKept : Nat
  page : Nat
  nextUrl : Json
  prevNext : Json
  seenIds : List Json
  fetches : Nat
  deriving DecidableEq, Repr

/-- Python `x in seen_ids`. -/
def memJ (x : Json) (l : List Json) : Bool := l.any (fun e => jeq x e)

/-- Line 134 of fetch.py: the ids of the page records (null for a record
with no id field) that are not already in seen_ids, in page order; none
models the AttributeError when a record is not a dict. -/
def newIdsOf : List Json → List Json → Option (List Json)
  | [], _ => some []
  | inv :: rest, seen =>
    match inv with
    | .obj _ =>
      match newIdsOf rest seen with
      | none => none
      | some tail =>
        if memJ (inv.getD "id") seen then some tail
        else some (inv.getD "id" :: tail)
    | _ => none

/-- Lines 115-121 of fetch.py: the request the next iteration issues — the
cursor url when next_url is truthy (a truthy non-string cursor crashes in
api_get at startswith), else the numbered page request. -/
def fetchOf (s : LoopState) : Option Request :=
  if s.nextUrl.truthy then
    match s.nextUrl with
    | .str u => some (.url u)
    | _ => none
  else some (.page s.page)

/-- Line 130 of fetch.py: the invoice collection of a page body (the body
must be a dict, or line 130 raises — handled at the call site). -/
def invoicesOf (data : Json) : Json :=
  orJ (data.getD "results") (orJ (data.getD "invoices") (orJ data (.arr [])))

/-- Line 131 of fetch.py: the next-page cursor of a dict body. -/
def extractNext (data : Json) : Json := data.getD "next"

/-- Outcome of one loop iteration: continue with a new state, leave the
loop with a final state (break), or die on an uncaught exception. -/
inductive Step where
  | next (s : LoopState)
  | done (s : LoopState)
  | crash
  deriving DecidableEq, Repr

/-- Lines 123-215 of fetch.py, after the fetch: 404 or any non-ok status
breaks the loop; then the body must be a dict (else line 130 raises); an
empty new_ids list breaks; otherwise truthy new ids enter seen_ids, the
page records are processed, and the cursor advances — a truthy next equal
to prev_next breaks, a truthy fresh next is adopted, no next bumps the page
number.  State updates are gathered into one record update; Python applies
them in source order, with no observable difference since a crash discards
the run. -/
def pageStep (contact : Json → String) (s : LoopState) (resp : Response) :
    Step :=
  if resp.status = 404 then .done s
  else if resp.isOk = false then .done s
  else
    match resp.body with
    | .obj _ =>
      match iterElems (invoicesOf resp.body) with
      | none => .crash
      | some elems =>
        match newIdsOf elems s.seenIds with
        | none => .crash
        | some newIds =>
          if newIds.isEmpty then .done { s with nextUrl := extractNext resp.body }
          else
            match processInvoices contact elems with
            | none => .crash
            | some (rows, kept) =>
              let s2 : LoopState := { s with
                nextUrl := extractNext resp.body,
                seenIds := s.seenIds ++ newIds.filter Json.truthy,
                totalFromApi := s.totalFromApi + elems.length,
                csvRows := s.csvRows ++ rows,
                totalKept := s.totalKept + kept }
              if (extractNext resp.body).truthy then
                if jeq (extractNext resp.body) s.prevNext then .done s2
                else .next { s2 with prevNext := extractNext resp.body }
              else .next { s2 with page := s2.page + 1 }
    | _ => .crash

/-- One full loop iteration: build the request, fetch (a TransportError is
uncaught and kills the run), then process the response. -/
def loopStep (api : PageApi) (contact : Json → String) (s : LoopState) : Step :=
  match fetchOf s with
  | none => .crash
  | some req =>
    match api req with
    | .transportError => .crash
    | .ok resp => pageStep contact { s with fetches := s.fetches + 1 } resp

/-- Line 111 of fetch.py. -/
def MAX_PAGES : Nat := 500

/-- Result of running the loop to completion: finished normally (summary
printed, csv written when rows exist), crashed on an uncaught exception
(nothing printed or written), or ran out of modelling fuel — the loop
itself has no such bound, fuelOut only marks that the given fuel did not
determine the outcome. -/
inductive RunResult where
  | finished (s : LoopState)
  | crashed
  | fuelOut (s : LoopState)
  deriving DecidableEq, Repr

/-- The while loop of lines 113-215: iterate while page is at most
MAX_PAGES. -/
def runLoopFrom (api : PageApi) (contact : Json → String) :
    Nat → LoopState → RunResult
  | 0, s => .fuelOut s
  | fuel + 1, s =>
    if s.page ≤ MAX_PAGES then
      match loopStep api contact s with
      | .next s2 => runLoopFrom api contact fuel s2
      | .done s2 => .finished s2
      | .crash => .crashed
    else .finished s

/-- Lines 103-111 of fetch.py: the initial loop state. -/
def initState : LoopState := ⟨[], 0, 0, 1, .null, .null, [], 0⟩

/-- fetch.py list_invoices, parametrized by the remote API and by the
contact resolver, with fuel bounding the modelled iterations. -/
def list_invoices (api : PageApi) (contact : Json → String) (fuel : Nat) :
    RunResult :=
  runLoopFrom api contact fuel initState

/-- Lines 226-237 of fetch.py: the csv header row. -/
def csvHeader : ExportRow :=
  ⟨"invoice_number", "date", "customer", "status", "description",
   "unit_price", "qty", "line_total"⟩

/-- Lines 222-239 of fetch.py: the csv file written at the end of a run —
header plus rows when any row was gathered, no file when none were, and
nothing at all when the run died on an exception (or is undetermined). -/
def exportedCsv : RunResult → Option (List ExportRow)
  | .finished s => if s.csvRows.isEmpty then none else some (csvHeader :: s.csvRows)
  | _ => none

/-- Ghost fetch counter of a run result (0 for a crashed run: the counter
is unobservable there). -/
def RunResult.fetchCount : RunResult → Nat
  | .finished s => s.fetches
  | .fuelOut s => s.fetches
  | .crashed => 0

/-- True when the run result is determined (the loop left its while loop or
died), false when the modelling fuel ran out first. -/
def RunResult.settled : RunResult → Bool
  | .fuelOut _ => false
  | _ => true

/-- True when an iteration outcome continues the loop (a further fetch will
be issued). -/
def Step.isNext : Step → Bool
  | .next _ => true
  | _ => false

example : processLineItem (.str "N") (.str "D") "C" "S"
    (.obj [("quantity", .null), ("qty", .num 3), ("line_amount", .null),
      ("amount", .num 30)])
    = some ⟨"N", "D", "C", "S", "-", "0.00", "1", "0.00"⟩ := by decide

example : processInv (fun _ => "X") (.obj [("id", .num 1)])
    = some ([⟨"", "", "—", "-", "-", "", "", ""⟩], 1) := by decide

example : list_invoices (fun req => match req with
    | .page 1 => .ok ⟨200, .obj [("results", .arr [.obj [("id", .num 1)]]),
        ("next", .null)]⟩
    | _ => .ok ⟨200, .obj [("results", .arr [.obj [("id", .num 1)]])]⟩)
    (fun _ => "X") 10
    = .finished ⟨[⟨"", "", "—", "-", "-", "", "", ""⟩], 1, 1, 2, .null, .null,
        [.num 1], 2⟩ := by decide

/-! ## Helper lemmas on truthiness and numeric resolution -/

theorem orJ_truthy_of_right (a b : Json) (hb : b.truthy = true) :
    (orJ a b).truthy = true := by
  rw [orJ]
  split
  · assumption
  · exact hb

theorem toQ?_ne_zero_of_truthy (j : Json) (q : ℚ) (htr : j.truthy = true)
    (hq : toQ? j = some q) : q ≠ 0 := by
  cases j with
  | num q0 =>
    have hq0 : q0 = q := by simpa [toQ?] using hq
    subst hq0
    simpa [Json.truthy] using htr
  | bool b =>
    have hb : b = true := by simpa [Json.truthy] using htr
    subst hb
    have hq1 : (1 : ℚ) = q := by simpa [toQ?] using hq
    rw [← hq1]
    norm_num
  | null => simp [toQ?] at hq
  | str s => simp [toQ?] at hq
  | arr l => simp [toQ?] at hq
  | obj fs => simp [toQ?] at hq

/-- C10: the unit_price computation never divides by zero: the truthiness
default on the quantity field makes the resolved qty truthy for every line
item (so the guarded else branch, unit_price := line_amount, is
unreachable), the resolved qty is never the number 0, any numeric value it
takes is non-zero, and whenever the divisor is numeric the division
succeeds, returning the exact quotient. -/
theorem c10_qty_never_zero (item : Json) :
    (qtyOf item).truthy = true
    ∧ qtyOf item ≠ .num 0
    ∧ (∀ q, toQ? (qtyOf item) = some q → q ≠ 0)
    ∧ (∀ la q, toQ? (qtyOf item) = some q →
        jdivQ la (qtyOf item) = some (pyDivQ la q)) := by
  have htr : (qtyOf item).truthy = true :=
    orJ_truthy_of_right _ _ (by decide)
  refine ⟨htr, ?_, ?_, ?_⟩
  · intro h
    rw [h] at htr
    exact absurd htr (by decide)
  · intro q hq
    exact toQ?_ne_zero_of_truthy _ _ htr hq
  · intro la q hq
    have hq0 : q ≠ 0 := toQ?_ne_zero_of_truthy _ _ htr hq
    rw [jdivQ, hq]
    simp [hq0]

/-- Witness for C10 at a concrete line item whose quantity field is the
(falsy) number 0: the resolved qty is the default 1 and the division by it
succeeds. -/
theorem c10_qty_never_zero_witness :
    qtyOf (.obj [("quantity", .num 0), ("line_amount", .num 30)]) = .num 1
    ∧ jdivQ 30 (qtyOf (.obj [("quantity", .num 0), ("line_amount", .num 30)]))
        = some 30 := by
  have h := c10_qty_never_zero (.obj [("quantity", .num 0), ("line_amount", .num 30)])
  refine ⟨by decide, ?_⟩
  have h2 := h.2.2.2 30 1 (by decide)
  rw [h2]
  decide

/-- C1 counterexample: on the line item of the claim the code resolves qty
from the quantity field only (so the falsy null defaults to 1, the qty
field 3 is never read) and line_total from the line_amount field only (so
the falsy null defaults to 0, the amount field 30 is never read), giving
the row cells quantity "1", unit_price "0.00", line_total "0.00" — not the
"3" / "10.00" / "30.00" the claim requires. -/
theorem c1_fallback_counterexample :
    processLineItem (.str "INV-1") (.str "2024-01-01") "Cust" "open"
      (.obj [("quantity", .null), ("qty", .num 3), ("line_amount", .null),
        ("amount", .num 30)])
      = some ⟨"INV-1", "2024-01-01", "Cust", "open", "-", "0.00", "1", "0.00"⟩
    ∧ (("1", "0.00", "0.00") : String × String × String)
        ≠ ("3", "30.00", "10.00") := by
  exact ⟨by decide, by decide⟩

theorem orJ_num_zero (x : ℚ) : orJ (.num x) (.num 0) = .num x := by
  rw [orJ]
  split
  · rfl
  · rename_i h
    simp [Json.truthy] at h
    rw [h]

/-- C1 amended: the line-item resolution of fetch.py reads only the
description, name, quantity and line_amount fields — the qty, amount and
total fields are never consulted; quantity is the quantity field with a
truthiness default of 1 and line_total is the line_amount field with a
truthiness default of 0; unit_price is line_total / quantity (the quantity
branch is truthy whenever it is a non-zero number); and on the input of the
claim the produced cells are quantity "1", unit_price "0.00", line_total
"0.00". -/
theorem c1_line_item_resolution_amended :
    (∀ (invNo date : Json) (customer status : String)
        (l1 l2 : List (String × Json)),
        (Json.obj l1).getD "description" = (Json.obj l2).getD "description" →
        (Json.obj l1).getD "name" = (Json.obj l2).getD "name" →
        (Json.obj l1).getD "quantity" = (Json.obj l2).getD "quantity" →
        (Json.obj l1).getD "line_amount" = (Json.obj l2).getD "line_amount" →
        processLineItem invNo date customer status (.obj l1)
          = processLineItem invNo date customer status (.obj l2))
    ∧ (∀ (invNo date : Json) (customer status : String)
        (l : List (String × Json)) (q la : ℚ),
        (Json.obj l).getD "description" = .null →
        (Json.obj l).getD "name" = .null →
        (Json.obj l).getD "quantity" = .num q → q ≠ 0 →
        (Json.obj l).getD "line_amount" = .num la →
        processLineItem invNo date customer status (.obj l)
          = some ⟨jstr invNo, jstr date, customer, status, "-",
              fmt2 (la / q), jstr (.num q), fmt2 la⟩)
    ∧ (∀ (invNo date : Json) (customer status : String)
        (l : List (String × Json)),
        (Json.obj l).getD "description" = .null →
        (Json.obj l).getD "name" = .null →
        (Json.obj l).getD "quantity" = .null →
        (Json.obj l).getD "line_amount" = .null →
        processLineItem invNo date customer status (.obj l)
          = some ⟨jstr invNo, jstr date, customer, status, "-",
              "0.00", "1", "0.00"⟩)
    ∧ processLineItem (.str "INV-1") (.str "2024-01-01") "Cust" "open"
        (.obj [("quantity", .null), ("qty", .num 3), ("line_amount", .null),
          ("amount", .num 30)])
        = some ⟨"INV-1", "2024-01-01", "Cust", "open", "-", "0.00", "1",
            "0.00"⟩ := by
  refine ⟨?_, ?_, ?_, by decide⟩
  · intro invNo date customer status l1 l2 h1 h2 h3 h4
    simp only [processLineItem, qtyOf, lineAmountOf, h1, h2, h3, h4]
  · intro invNo date customer status l q la hd hn hq hq0 hla
    have htr : (Json.num q).truthy = true := by simp [Json.truthy, hq0]
    rw [processLineItem]
    simp only [qtyOf, lineAmountOf, hd, hn, hq, hla, orJ_num_zero]
    rw [show orJ .null (orJ .null (.str "-")) = .str "-" from by decide]
    rw [show orJ (Json.num q) (.num 1) = .num q from by rw [orJ, if_pos htr]]
    simp only [toQ?, htr, if_pos, jdivQ, hq0, if_neg,
      pyDivQ_eq_div la q (by exact_mod_cast hq0)]
    simp
  · intro invNo date customer status l hd hn hq hla
    rw [processLineItem]
    simp only [qtyOf, lineAmountOf, hd, hn, hq, hla]
    rw [show orJ .null (orJ .null (.str "-")) = .str "-" from by decide]
    rw [show orJ Json.null (.num 1) = .num 1 from by decide]
    rw [show orJ Json.null (.num 0) = .num 0 from by decide]
    simp only [toQ?]
    rw [show (Json.num 1).truthy = true from by decide]
    simp only [if_pos]
    rw [show jdivQ 0 (.num 1) = some 0 from by decide]
    rw [show jstr (.num 1) = "1" from by decide]
    simp [show fmt2 0 = "0.00" from by decide]

/-- Witness for C1 (amended) at a concrete line item carrying quantity 1
and line_amount 30. -/
theorem c1_line_item_resolution_amended_witness :
    processLineItem (.str "N") (.str "D") "C" "S"
      (.obj [("quantity", .num 1), ("line_amount", .num 30)])
      = some ⟨"N", "D", "C", "S", "-", "30.00", "1", "30.00"⟩ := by
  have h := c1_line_item_resolution_amended.2.1 (.str "N") (.str "D") "C" "S"
    [("quantity", .num 1), ("line_amount", .num 30)] 1 30
    (by decide) (by decide) (by decide) (by decide) (by decide)
  rw [h, show (30 : ℚ) / 1 = 30 from div_one 30]
  decide

/-- C4 counterexample: a kept invoice with no invoice_number, number,
invoice_date or date field produces a row whose invoice_number and date
cells are the empty string — not the non-empty dash fallback the claim
requires. -/
theorem c4_nonempty_cells_counterexample :
    processInv (fun _ => "X") (.obj [("id", .num 1)])
      = some ([⟨"", "", "—", "-", "-", "", "", ""⟩], 1)
    ∧ ¬ (("" : String) ≠ "") := by
  exact ⟨by decide, by simp⟩

theorem customerOf_ne_empty (contact : Json → String) (inv : Json)
    (hcontact : ∀ c, contact c ≠ "") : customerOf contact inv ≠ "" := by
  rw [customerOf]
  split
  · exact hcontact _
  · decide

theorem statusCellOf_ne_empty (s : String) : statusCellOf s ≠ "" := by
  rw [statusCellOf]
  split
  · decide
  · assumption

theorem processLineItem_fields (invNo date : Json) (customer status : String)
    (item : Json) (row : ExportRow)
    (h : processLineItem invNo date customer status item = some row) :
    row.customer = customer ∧ row.status = status
      ∧ row.unit_price ≠ "" ∧ row.line_total ≠ "" := by
  cases item with
  | obj fs =>
    rw [processLineItem] at h
    repeat' split at h
    any_goals exact Option.noConfusion h
    have h2 := Option.some.inj h
    subst h2
    exact ⟨rfl, rfl, fmt2_ne_empty _, fmt2_ne_empty _⟩
  | null => exact absurd h (by simp [processLineItem])
  | bool b => exact absurd h (by simp [processLineItem])
  | num q => exact absurd h (by simp [processLineItem])
  | str s => exact absurd h (by simp [processLineItem])
  | arr l => exact absurd h (by simp [processLineItem])

theorem processLineItems_fields (invNo date : Json) (customer status : String) :
    ∀ (items : List Json) (rows : List ExportRow),
      processLineItems invNo date customer status items = some rows →
      ∀ row ∈ rows, row.customer = customer ∧ row.status = status
        ∧ row.unit_price ≠ "" ∧ row.line_total ≠ "" := by
  intro items
  induction items with
  | nil =>
    intro rows h row hrow
    have h2 := Option.some.inj h
    subst h2
    simp at hrow
  | cons item rest ih =>
    intro rows h row hrow
    rw [processLineItems] at h
    cases h1 : processLineItem invNo date customer status item with
    | none => rw [h1] at h; exact absurd h (by simp)
    | some r0 =>
      rw [h1] at h
      cases h2 : processLineItems invNo date customer status rest with
      | none => rw [h2] at h; exact absurd h (by simp)
      | some rows0 =>
        rw [h2] at h
        have h3 := Option.some.inj h
        subst h3
        cases hrow with
        | head => exact processLineItem_fields invNo date customer status item row h1
        | tail _ hmem => exact ih rows0 h2 row hmem

/-- C4 amended: every row appended by processInv has a non-empty customer
cell (given that the contact resolver never returns the empty string — the
second conjunct shows get_contact_name indeed never does) and a non-empty
status cell, and its unit_price and line_total cells are either both
present or both empty; invoice_number and date fall back to the empty
string, not to a dash (see the counterexample). -/
theorem c4_row_invariant_amended :
    (∀ (contact : Json → String) (inv : Json) (res : List ExportRow × Nat),
        (∀ c, contact c ≠ "") →
        processInv contact inv = some res →
        ∀ row ∈ res.1, row.customer ≠ "" ∧ row.status ≠ ""
          ∧ (row.unit_price = "" ↔ row.line_total = ""))
    ∧ (∀ (api : ContactApi) (cache : ContactCache) (cid : Json)
        (v : String) (cache2 : ContactCache) (k : Nat),
        (∀ e ∈ cache, e.2 ≠ "") →
        get_contact_name api cache cid = ⟨some v, cache2, k⟩ →
        v ≠ "" ∧ ∀ e ∈ cache2, e.2 ≠ "") := by
  constructor
  · intro contact inv res hcontact h row hrow
    cases inv with
    | obj fs =>
      rw [processInv] at h
      repeat' split at h
      any_goals exact Option.noConfusion h
      · -- id falsy: no rows
        have h2 := Option.some.inj h
        subst h2
        simp at hrow
      · -- deleted status: no rows
        have h2 := Option.some.inj h
        subst h2
        simp at hrow
      · -- placeholder row
        have h2 := Option.some.inj h
        subst h2
        have hr := List.mem_singleton.mp hrow
        subst hr
        refine ⟨customerOf_ne_empty _ _ hcontact, statusCellOf_ne_empty _, by simp⟩
      · -- line-item rows
        have h2 := Option.some.inj h
        subst h2
        rename_i x1 items hitems x2 rows hrows
        have h3 := processLineItems_fields (invNoOf (.obj fs)) (dateOf (.obj fs))
          (customerOf contact (.obj fs)) (statusCellOf _) items rows hrows row hrow
        refine ⟨?_, ?_, ?_⟩
        · rw [h3.1]
          exact customerOf_ne_empty _ _ hcontact
        · rw [h3.2.1]
          exact statusCellOf_ne_empty _
        · constructor
          · intro hup
            exact absurd hup h3.2.2.1
          · intro hlt
            exact absurd hlt h3.2.2.2
    | null => exact absurd h (by simp [processInv])
    | bool b => exact absurd h (by simp [processInv])
    | num q => exact absurd h (by simp [processInv])
    | str s => exact absurd h (by simp [processInv])
    | arr l => exact absurd h (by simp [processInv])
  · intro api cache cid v cache2 k hcache hcall
    have hchain : ∀ a b : Json,
        jstr (orJ a (orJ b (.str ("id:" ++ jstr cid)))) ≠ "" := by
      intro a b
      simp only [orJ]
      split
      · exact jstr_ne_empty_of_truthy _ (by assumption)
      · split
        · exact jstr_ne_empty_of_truthy _ (by assumption)
        · rw [jstr_str]
          exact append_ne_empty_left _ _ (by decide)
    rw [get_contact_name] at hcall
    cases hc : lookupCache cache cid with
    | some v0 =>
      rw [hc] at hcall
      simp only [ContactOut.mk.injEq, Option.some.injEq] at hcall
      obtain ⟨hv, hcache2, hk⟩ := hcall
      subst hv
      subst hcache2
      have hv0 : v0 ∈ cache.map Prod.snd := by
        clear hcache
        induction cache with
        | nil => simp [lookupCache] at hc
        | cons e rest ih =>
          rw [lookupCache] at hc
          by_cases hje : jeq e.1 cid = true
          · rw [show e = (e.1, e.2) from rfl, if_pos hje] at hc
            simp at hc
            simp [hc]
          · rw [show e = (e.1, e.2) from rfl, if_neg hje] at hc
            simp only [List.map_cons, List.mem_cons]
            exact Or.inr (ih hc)
      constructor
      · obtain ⟨e, hmem, hev⟩ := List.mem_map.mp hv0
        rw [← hev]
        exact hcache e hmem
      · exact hcache
    | none =>
      rw [hc] at hcall
      by_cases htruthy : cid.truthy = true
      · cases hapi : api cid with
        | none => simp [htruthy, hapi] at hcall
        | some resp =>
          cases hok : resp.isOk with
          | false =>
            simp [htruthy, hapi, hok] at hcall
            obtain ⟨hv, hcache2, hk⟩ := hcall
            subst hv
            subst hcache2
            refine ⟨append_ne_empty_left _ _ (by decide), ?_⟩
            intro e hmem
            rcases List.mem_cons.mp hmem with he | he
            · rw [he]
              exact append_ne_empty_left _ _ (by decide)
            · exact hcache e he
          | true =>
            cases hbody : resp.body with
            | obj bfs =>
              simp [htruthy, hapi, hok, hbody] at hcall
              obtain ⟨hv, hcache2, hk⟩ := hcall
              subst hv
              subst hcache2
              rw [← hbody]
              refine ⟨hchain _ _, ?_⟩
              intro e hmem
              rcases List.mem_cons.mp hmem with he | he
              · rw [he]
                exact hchain _ _
              · exact hcache e he
            | null => simp [htruthy, hapi, hok, hbody] at hcall
            | bool b => simp [htruthy, hapi, hok, hbody] at hcall
            | num q => simp [htruthy, hapi, hok, hbody] at hcall
            | str s => simp [htruthy, hapi, hok, hbody] at hcall
            | arr l => simp [htruthy, hapi, hok, hbody] at hcall
      · have hf : cid.truthy = false := by
          cases hx : cid.truthy
          · rfl
          · exact absurd hx htruthy
        simp [hf] at hcall
        obtain ⟨hv, hcache2, hk⟩ := hcall
        subst hv
        subst hcache2
        refine ⟨by decide, ?_⟩
        intro e hmem
        rcases List.mem_cons.mp hmem with he | he
        · rw [he]
          exact (by decide : ("—" : String) ≠ "")
        · exact hcache e he

/-- Witness for C4 (amended) at a concrete kept invoice with one line item:
the produced row satisfies the invariant, and the resolver returns a
non-empty placeholder for a null contact id. -/
theorem c4_row_invariant_amended_witness :
    (⟨"", "", "X", "open", "-", "30.00", "1", "30.00"⟩ : ExportRow).customer ≠ ""
    ∧ (⟨"", "", "X", "open", "-", "30.00", "1", "30.00"⟩ : ExportRow).status ≠ ""
    ∧ (("—" : String) ≠ "") := by
  have h := c4_row_invariant_amended.1 (fun _ => "X")
    (.obj [("id", .num 1), ("status", .str "open"), ("contact", .str "c9"),
      ("line_items", .arr [.obj [("line_amount", .num 30), ("quantity", .num 1)]])])
    ([⟨"", "", "X", "open", "-", "30.00", "1", "30.00"⟩], 1)
    (fun c => (by decide : ("X" : String) ≠ "")) (by decide)
    ⟨"", "", "X", "open", "-", "30.00", "1", "30.00"⟩ (by simp)
  have h2 := c4_row_invariant_amended.2 (fun _ => some ⟨200, .obj []⟩) [] .null
    "—" [(.null, "—")] 0 (by simp) (by decide)
  exact ⟨h.1, h.2.1, h2.1⟩

theorem memJ_false_of_falsy (x : Json) (seen : List Json)
    (hx : x.truthy = false) (hseen : ∀ e ∈ seen, e.truthy = true) :
    memJ x seen = false := by
  induction seen with
  | nil => rfl
  | cons e rest ih =>
    rw [memJ, List.any_cons]
    have h1 : jeq x e = false := by
      cases hje : jeq x e
      · rfl
      · have h2 := jeq_sound x e hje
        subst h2
        rw [hseen x (List.mem_cons_self _ _)] at hx
        exact absurd hx (by decide)
    rw [h1]
    simp only [Bool.false_or]
    exact ih (fun e2 he2 => hseen e2 (List.mem_cons_of_mem _ he2))

/-- The state carried by a non-crash iteration outcome. -/
def Step.stateOf? : Step → Option LoopState
  | .next s => some s
  | .done s => some s
  | .crash => none

/-- C9: an invoice record with an absent or falsy id is silently skipped —
it contributes no export rows and does not increment the kept counter —
and its id value is never added to seen_ids (only truthy ids are); any
page containing such a record yields a non-empty new_ids list (a falsy id
is never in seen_ids), so the page never triggers the empty-new_ids
termination by itself; and the page totals still count every record of the
page, id-less ones included. -/
theorem c9_idless_records (contact : Json → String) :
    (∀ (fs : List (String × Json)),
        ((Json.obj fs).getD "id").truthy = false →
        processInv contact (.obj fs) = some ([], 0))
    ∧ (∀ (elems seen : List Json) (inv : Json) (res : List Json),
        inv ∈ elems → (inv.getD "id").truthy = false →
        (∀ x ∈ seen, x.truthy = true) →
        newIdsOf elems seen = some res → res ≠ [])
    ∧ (∀ (seen newIds : List Json), (∀ x ∈ seen, x.truthy = true) →
        ∀ x ∈ seen ++ newIds.filter Json.truthy, x.truthy = true)
    ∧ (∀ (s : LoopState) (resp : Response) (elems newIds : List Json)
        (rows : List ExportRow) (kept : Nat)
        (bfs : List (String × Json)),
        resp.status ≠ 404 → resp.isOk = true → resp.body = .obj bfs →
        iterElems (invoicesOf resp.body) = some elems →
        newIdsOf elems s.seenIds = some newIds → newIds ≠ [] →
        processInvoices contact elems = some (rows, kept) →
        ∀ s2, Step.stateOf? (pageStep contact s resp) = some s2 →
          s2.totalFromApi = s.totalFromApi + elems.length) := by
  refine ⟨?_, ?_, ?_, ?_⟩
  · intro fs hid
    rw [processInv, if_pos hid]
  · intro elems
    induction elems with
    | nil => intro seen inv res hmem; simp at hmem
    | cons e rest ih =>
      intro seen inv res hmem hid hseen hnew
      cases e with
      | obj efs =>
        simp only [newIdsOf] at hnew
        cases h2 : newIdsOf rest seen with
        | none => rw [h2] at hnew; exact Option.noConfusion hnew
        | some tail =>
          rw [h2] at hnew
          simp only [] at hnew
          rcases List.mem_cons.mp hmem with he | he
          · subst he
            rw [memJ_false_of_falsy _ _ hid hseen] at hnew
            simp only [Bool.false_eq_true, if_false] at hnew
            have h3 := Option.some.inj hnew
            subst h3
            simp
          · have htail : tail ≠ [] := ih seen inv tail he hid hseen h2
            by_cases hm : memJ ((Json.obj efs).getD "id") seen = true
            · rw [hm] at hnew
              simp only [if_true] at hnew
              have h3 := Option.some.inj hnew
              subst h3
              exact htail
            · rw [show memJ ((Json.obj efs).getD "id") seen = false from by
                cases hx : memJ ((Json.obj efs).getD "id") seen
                · rfl
                · exact absurd hx hm] at hnew
              simp only [Bool.false_eq_true, if_false] at hnew
              have h3 := Option.some.inj hnew
              subst h3
              simp
      | null =>
        simp only [newIdsOf] at hnew
        exact Option.noConfusion hnew
      | bool b =>
        simp only [newIdsOf] at hnew
        exact Option.noConfusion hnew
      | num q =>
        simp only [newIdsOf] at hnew
        exact Option.noConfusion hnew
      | str s =>
        simp only [newIdsOf] at hnew
        exact Option.noConfusion hnew
      | arr l =>
        simp only [newIdsOf] at hnew
        exact Option.noConfusion hnew
  · intro seen newIds hseen x hx
    rcases List.mem_append.mp hx with hm | hm
    · exact hseen x hm
    · exact (List.mem_filter.mp hm).2
  · intro s resp elems newIds rows kept bfs h404 hok hbody hiter hnew hne hproc
      s2 hs2
    rw [hbody] at hiter
    have hempty : newIds.isEmpty = false := by
      cases newIds
      · exact absurd rfl hne
      · rfl
    simp only [pageStep, hbody, h404, hok, hiter, hnew, hproc, hempty,
      if_false, Bool.false_eq_true, Bool.true_eq_false] at hs2
    split at hs2
    · split at hs2
      · simp only [Step.stateOf?, Option.some.injEq] at hs2
        rw [← hs2]
      · simp only [Step.stateOf?, Option.some.injEq] at hs2
        rw [← hs2]
    · simp only [Step.stateOf?, Option.some.injEq] at hs2
      rw [← hs2]

/-- Witness for C9 at a concrete id-less record: it is skipped with no rows
and no kept increment, yet the page's new_ids list is the non-empty
[null]. -/
theorem c9_idless_records_witness :
    processInv (fun _ => "X") (.obj [("name", .str "ghost")]) = some ([], 0)
    ∧ newIdsOf [.obj [("name", .str "ghost")]] [] = some [.null]
    ∧ ([Json.null] : List Json) ≠ [] := by
  have h := c9_idless_records (fun _ => "X")
  refine ⟨h.1 [("name", .str "ghost")] (by decide), by decide, ?_⟩
  exact h.2.1 [.obj [("name", .str "ghost")]] [] (.obj [("name", .str "ghost")])
    [.null] (by simp) (by decide) (by simp) (by decide)

/-- The newly seen invoice ids of a page as the C5 claim words them — "ids
present in the page but not already in seen_ids": the id values that are
present (a record without an id field, whose lookup is None, contributes
none) and not yet seen.  This definition follows the claim, for comparison
against the code's newIdsOf, which instead keeps a None entry for every
id-less record. -/
def specNewIds (page : List Json) (seen : List Json) : List Json :=
  (page.filterMap (fun inv =>
    match inv.getD "id" with
    | .null => none
    | v => some v)).filter (fun i => !(memJ i seen))

/-- C5 counterexample: a first page holding a single record without an id.
The claim's set of newly seen ids is empty, so the claim requires the
engine to terminate without a further fetch; the code's new_ids list is
[None], which is not empty, and the loop continues to another fetch. -/
theorem c5_empty_new_ids_counterexample :
    specNewIds [.obj [("name", .str "ghost")]] [] = []
    ∧ Step.isNext (loopStep
        (fun _ => .ok ⟨200, .obj [("results", .arr [.obj [("name", .str "ghost")]])]⟩)
        (fun _ => "—") initState) = true := by
  exact ⟨by decide, by decide⟩

/-- C5 amended: the loop terminates immediately — breaking before any
record is processed or any further fetch is issued — exactly when the
code's new_ids list is empty: when every record of the page carries an id
already in seen_ids (id-less records keep the list non-empty, see C9).  In
particular a second page repeating exactly the ids of the first page ends
the run after that second page. -/
theorem c5_code_empty_new_ids_terminates (api : PageApi)
    (contact : Json → String) (s : LoopState) (req : Request)
    (resp : Response) (bfs : List (String × Json)) (elems : List Json)
    (hreq : fetchOf s = some req) (hapi : api req = .ok resp)
    (h404 : resp.status ≠ 404) (hok : resp.isOk = true)
    (hbody : resp.body = .obj bfs)
    (helems : iterElems (invoicesOf resp.body) = some elems)
    (hnew : newIdsOf elems s.seenIds = some []) :
    loopStep api contact s
      = .done { s with fetches := s.fetches + 1, nextUrl := extractNext resp.body }
    ∧ ∀ fuel : Nat, s.page ≤ MAX_PAGES →
        runLoopFrom api contact (fuel + 1) s
          = .finished
              { s with fetches := s.fetches + 1, nextUrl := extractNext resp.body } := by
  rw [hbody] at helems
  have hstep : loopStep api contact s
      = .done { s with fetches := s.fetches + 1, nextUrl := extractNext resp.body } := by
    simp only [loopStep, hreq, hapi, pageStep, h404, hok, hbody, helems, hnew,
      if_false, Bool.true_eq_false, List.isEmpty_nil, if_true]
  refine ⟨hstep, ?_⟩
  intro fuel hpage
  rw [runLoopFrom, if_pos hpage, hstep]

/-- Witness for C5 (amended): a second page repeating exactly the ids of
the first page (state after page 1: seen_ids 1 and 2) ends the run at that
second page. -/
theorem c5_code_empty_new_ids_terminates_witness :
    loopStep
      (fun _ => .ok ⟨200, .obj [("results",
        .arr [.obj [("id", .num 1)], .obj [("id", .num 2)]])]⟩)
      (fun _ => "—")
      ⟨[⟨"", "", "—", "-", "-", "", "", ""⟩, ⟨"", "", "—", "-", "-", "", "", ""⟩],
        2, 2, 2, .null, .null, [.num 1, .num 2], 1⟩
      = .done
        ⟨[⟨"", "", "—", "-", "-", "", "", ""⟩, ⟨"", "", "—", "-", "-", "", "", ""⟩],
          2, 2, 2, .null, .null, [.num 1, .num 2], 2⟩ := by
  have h := (c5_code_empty_new_ids_terminates
    (fun _ => .ok ⟨200, .obj [("results",
      .arr [.obj [("id", .num 1)], .obj [("id", .num 2)]])]⟩)
    (fun _ => "—")
    ⟨[⟨"", "", "—", "-", "-", "", "", ""⟩, ⟨"", "", "—", "-", "-", "", "", ""⟩],
      2, 2, 2, .null, .null, [.num 1, .num 2], 1⟩
    (.page 2)
    ⟨200, .obj [("results", .arr [.obj [("id", .num 1)], .obj [("id", .num 2)]])]⟩
    [("results", .arr [.obj [("id", .num 1)], .obj [("id", .num 2)]])]
    [.obj [("id", .num 1)], .obj [("id", .num 2)]]
    rfl rfl (by decide) (by decide) rfl (by decide) (by decide)).1
  rw [h]
  decide

/-- C7: whenever the cursor extracted from the current page equals the
truthy prev_next cursor adopted for the preceding fetch, the iteration is
the last — the loop never continues to a further fetch (it breaks at the
repeated-cursor check, or earlier at another break, or the run dies on a
processing exception; in no case is the stale cursor adopted again). -/
theorem c7_repeated_cursor_stops (api : PageApi) (contact : Json → String)
    (s : LoopState) (req : Request) (resp : Response)
    (bfs : List (String × Json))
    (htr : s.prevNext.truthy = true)
    (hreq : fetchOf s = some req) (hapi : api req = .ok resp)
    (hbody : resp.body = .obj bfs)
    (hnext : extractNext resp.body = s.prevNext) :
    Step.isNext (loopStep api contact s) = false := by
  simp only [loopStep, hreq, hapi, pageStep]
  by_cases h404 : resp.status = 404
  · simp [h404, Step.isNext]
  · simp only [h404, if_false]
    by_cases hok : resp.isOk = false
    · simp [hok, Step.isNext]
    · simp only [hok, if_false, hbody]
      cases h1 : iterElems (invoicesOf (.obj bfs)) with
      | none => simp [h1, Step.isNext]
      | some elems =>
        simp only [h1]
        cases h2 : newIdsOf elems s.seenIds with
        | none => simp [h2, Step.isNext]
        | some newIds =>
          simp only [h2]
          by_cases h3 : newIds.isEmpty = true
          · simp [h3, Step.isNext]
          · have h3f : newIds.isEmpty = false := by
              cases hx : newIds.isEmpty
              · rfl
              · exact absurd hx h3
            simp only [h3f, Bool.false_eq_true, if_false]
            cases h4 : processInvoices contact elems with
            | none => simp [h4, Step.isNext]
            | some rowsKept =>
              rw [hbody] at hnext
              simp only [h4, hnext, htr, if_true, jeq_refl, Step.isNext]
              simp

/-- Witness for C7: a page whose next cursor repeats the adopted cursor
"u"; the iteration does not continue the loop. -/
theorem c7_repeated_cursor_stops_witness :
    Step.isNext (loopStep
      (fun _ => .ok ⟨200, .obj [("results", .arr [.obj [("id", .num 2)]]),
        ("next", .str "u")]⟩)
      (fun _ => "—") ⟨[], 1, 1, 1, .str "u", .str "u", [.num 1], 1⟩) = false := by
  exact c7_repeated_cursor_stops
    (fun _ => .ok ⟨200, .obj [("results", .arr [.obj [("id", .num 2)]]),
      ("next", .str "u")]⟩)
    (fun _ => "—") ⟨[], 1, 1, 1, .str "u", .str "u", [.num 1], 1⟩
    (.url "u")
    ⟨200, .obj [("results", .arr [.obj [("id", .num 2)]]), ("next", .str "u")]⟩
    [("results", .arr [.obj [("id", .num 2)]]), ("next", .str "u")]
    (by decide) (by decide) rfl rfl (by decide)

/-- C2 counterexample: page 1 succeeds and yields one export row, page 2
fails with a network-level TransportError.  The claim requires the run to
complete and export the page-1 rows; the code has no handler, so the
exception kills the run — the result is crashed, and no csv is written. -/
theorem c2_transport_discards_rows_counterexample :
    Step.stateOf? (loopStep
      (fun req => match req with
        | .page 1 => .ok ⟨200, .obj [("results", .arr [.obj [("id", .num 1)]])]⟩
        | _ => .transportError)
      (fun _ => "—") initState)
      = some ⟨[⟨"", "", "—", "-", "-", "", "", ""⟩], 1, 1, 2, .null, .null,
          [.num 1], 1⟩
    ∧ list_invoices
      (fun req => match req with
        | .page 1 => .ok ⟨200, .obj [("results", .arr [.obj [("id", .num 1)]])]⟩
        | _ => .transportError)
      (fun _ => "—") 10 = .crashed
    ∧ exportedCsv (list_invoices
      (fun req => match req with
        | .page 1 => .ok ⟨200, .obj [("results", .arr [.obj [("id", .num 1)]])]⟩
        | _ => .transportError)
      (fun _ => "—") 10) = none := by
  exact ⟨by decide, by decide, by decide⟩

/-- C2 amended: a network-level error on any page fetch is uncaught: the
iteration crashes the whole run, no summary is reported and no csv file is
written — rows gathered from earlier pages are discarded, not exported. -/
theorem c2_transport_error_kills_run (api : PageApi) (contact : Json → String)
    (s : LoopState) (req : Request) (fuel : Nat)
    (hpage : s.page ≤ MAX_PAGES)
    (hreq : fetchOf s = some req) (hapi : api req = .transportError) :
    loopStep api contact s = .crash
    ∧ runLoopFrom api contact (fuel + 1) s = .crashed
    ∧ exportedCsv (runLoopFrom api contact (fuel + 1) s) = none := by
  have hstep : loopStep api contact s = .crash := by
    simp [loopStep, hreq, hapi]
  refine ⟨hstep, ?_, ?_⟩
  · rw [runLoopFrom, if_pos hpage, hstep]
  · rw [runLoopFrom, if_pos hpage, hstep]
    rfl

/-- Witness for C2 (amended): with a network that always times out, the
run crashes from the initial state. -/
theorem c2_transport_error_kills_run_witness :
    list_invoices (fun _ => .transportError) (fun _ => "—") 10 = .crashed := by
  have h := c2_transport_error_kills_run (fun _ => .transportError)
    (fun _ => "—") initState (.page 1) 9 (by decide) rfl rfl
  exact h.2.1

/-! ## C3: the 500-page cap does not bound cursor-driven pagination -/

/-- A cursor string of n repeated characters. -/
def uStr (n : Nat) : String := String.mk (List.replicate n 'u')

/-- A pathological cursor-driven API: every page carries one id-less record
and a fresh next cursor (one character longer than the requested one).
Because the loop only increments `page` when no cursor is present, `page`
stays at 1 forever and the 500-page cap never fires. -/
def apiFreshCursor : PageApi := fun req =>
  .ok ⟨200, .obj [("results", .arr [.obj [("name", .str "g")]]),
    ("next", .str (match req with | .page _ => uStr 1 | .url s => s ++ "u"))]⟩

/-- The loop state after n iterations against apiFreshCursor. -/
def sN (n : Nat) : LoopState :=
  ⟨[], n, 0, 1, .str (uStr n), .str (uStr n), [], n⟩

theorem uStr_ne_empty (n : Nat) (h : 1 ≤ n) : uStr n ≠ "" := by
  intro he
  have h2 := congrArg (fun s : String => s.data.length) he
  simp [uStr] at h2
  omega

theorem uStr_ne (a b : Nat) (h : a ≠ b) : uStr a ≠ uStr b := by
  intro he
  have h2 := congrArg (fun s : String => s.data.length) he
  simp [uStr] at h2
  exact h h2

theorem uStr_succ (n : Nat) : uStr n ++ "u" = uStr (n + 1) := by
  show String.mk (List.replicate n 'u') ++ String.mk ['u'] = _
  rw [show (String.mk (List.replicate n 'u') ++ String.mk ['u'])
      = String.mk (List.replicate n 'u' ++ ['u']) from rfl]
  rw [uStr, ← List.replicate_succ' n 'u']

theorem loopStep_sN (n : Nat) (h : 1 ≤ n) :
    loopStep apiFreshCursor (fun _ => "—") (sN n) = .next (sN (n + 1)) := by
  have hu : uStr n ≠ "" := uStr_ne_empty n h
  have hv : uStr (n + 1) ≠ "" := uStr_ne_empty (n + 1) (by omega)
  have hne : uStr (n + 1) ≠ uStr n := uStr_ne _ _ (by omega)
  have htr : Json.truthy (.str (uStr n)) = true := by
    simp [Json.truthy, hu]
  have hreq : fetchOf (sN n) = some (.url (uStr n)) := by
    rw [fetchOf]
    rw [show (sN n).nextUrl = .str (uStr n) from rfl]
    rw [if_pos htr]
  have hapi : apiFreshCursor (.url (uStr n))
      = .ok ⟨200, .obj [("results", .arr [.obj [("name", .str "g")]]),
          ("next", .str (uStr (n + 1)))]⟩ := by
    rw [apiFreshCursor]
    rw [show ((uStr n ++ "u") : String) = uStr (n + 1) from uStr_succ n]
  have hinv : iterElems (invoicesOf (.obj [("results",
      .arr [.obj [("name", .str "g")]]), ("next", .str (uStr (n + 1)))]))
      = some [.obj [("name", .str "g")]] := rfl
  have hnew : newIdsOf [.obj [("name", .str "g")]] ([] : List Json)
      = some [.null] := rfl
  have hproc : processInvoices (fun _ => "—") [.obj [("name", .str "g")]]
      = some ([], 0) := rfl
  have hextract : extractNext (.obj [("results", .arr [.obj [("name", .str "g")]]),
      ("next", .str (uStr (n + 1)))]) = .str (uStr (n + 1)) := rfl
  have htrv : Json.truthy (.str (uStr (n + 1))) = true := by
    simp [Json.truthy, hv]
  have hjeq : jeq (.str (uStr (n + 1))) (.str (uStr n)) = false := by
    simp [jeq, hne]
  have hseen : (sN n).seenIds = ([] : List Json) := rfl
  have hprev : (sN n).prevNext = .str (uStr n) := rfl
  simp only [loopStep, hreq, hapi, pageStep, hseen, hinv, hnew, hproc,
    hextract, htrv, hjeq, hprev]
  norm_num [Response.isOk, sN, List.isEmpty_cons, Json.truthy]

theorem runLoopFrom_sN (fuel : Nat) :
    ∀ n : Nat, 1 ≤ n →
      runLoopFrom apiFreshCursor (fun _ => "—") fuel (sN n)
        = .fuelOut (sN (n + fuel)) := by
  induction fuel with
  | zero => intro n h; rfl
  | succ f ih =>
    intro n h
    rw [runLoopFrom]
    rw [if_pos (show (sN n).page ≤ MAX_PAGES from
      (by decide : (1 : Nat) ≤ MAX_PAGES))]
    rw [loopStep_sN n h]
    show runLoopFrom apiFreshCursor (fun _ => "—") f (sN (n + 1))
      = RunResult.fuelOut (sN (n + (f + 1)))
    rw [ih (n + 1) (by omega)]
    rw [show n + 1 + f = n + (f + 1) from by omega]

/-- C3 counterexample: against apiFreshCursor, whose every response carries
a fresh next cursor, the loop has performed 501 fetches after 501
iterations and has still not terminated — page stays at 1, so the
500-page cap never fires and the claimed bound of at most 500 fetch
iterations is violated. -/
theorem c3_cap_counterexample :
    RunResult.settled
      (list_invoices apiFreshCursor (fun _ => "—") 501) = false
    ∧ RunResult.fetchCount
      (list_invoices apiFreshCursor (fun _ => "—") 501) = 501 := by
  have h1 : loopStep apiFreshCursor (fun _ => "—") initState = .next (sN 1) := by
    decide
  have h2 : list_invoices apiFreshCursor (fun _ => "—") 501
      = .fuelOut (sN 501) := by
    show runLoopFrom apiFreshCursor (fun _ => "—") (500 + 1) initState = _
    rw [runLoopFrom]
    rw [if_pos (show initState.page ≤ MAX_PAGES from by decide)]
    rw [h1]
    show runLoopFrom apiFreshCursor (fun _ => "—") 500 (sN 1)
      = RunResult.fuelOut (sN 501)
    exact runLoopFrom_sN 500 1 (by omega)
  rw [h2]
  exact ⟨rfl, rfl⟩

/-- The loop state after every iteration of page-number pagination keeps
no cursor, pairs fetches with page, and stays within the cap: under an API
that never produces a truthy next cursor, the run settles within the cap
and issues at most MAX_PAGES fetches. -/
theorem runLoopFrom_no_cursor_bound (api : PageApi) (contact : Json → String)
    (hnext : ∀ req r, api req = .ok r → (extractNext r.body).truthy = false) :
    ∀ (fuel : Nat) (s : LoopState),
      s.nextUrl.truthy = false →
      s.fetches + 1 = s.page →
      s.page ≤ MAX_PAGES + 1 →
      MAX_PAGES + 2 ≤ s.page + fuel →
      RunResult.settled (runLoopFrom api contact fuel s) = true
      ∧ RunResult.fetchCount (runLoopFrom api contact fuel s) ≤ MAX_PAGES := by
  have hM : MAX_PAGES = 500 := rfl
  intro fuel
  induction fuel with
  | zero =>
    intro s h1 h2 h4 h5
    rw [hM] at h4 h5
    omega
  | succ f ih =>
    intro s h1 h2 h4 h5
    rw [runLoopFrom]
    by_cases hp : s.page ≤ MAX_PAGES
    · rw [if_pos hp]
      have hreq : fetchOf s = some (.page s.page) := by
        rw [fetchOf, if_neg]
        rw [h1]
        simp
      cases hapi : api (.page s.page) with
      | transportError =>
        rw [show loopStep api contact s = .crash from by
          simp only [loopStep, hreq, hapi]]
        refine ⟨rfl, ?_⟩
        show (0 : Nat) ≤ MAX_PAGES
        rw [hM]
        omega
      | ok r =>
        have hstep : loopStep api contact s
            = pageStep contact { s with fetches := s.fetches + 1 } r := by
          simp only [loopStep, hreq, hapi]
        rw [hstep]
        have hfn : (extractNext r.body).truthy = false := hnext _ _ hapi
        rw [pageStep]
        by_cases h404 : r.status = 404
        · rw [if_pos h404]
          refine ⟨rfl, ?_⟩
          show s.fetches + 1 ≤ MAX_PAGES
          rw [hM]
          rw [hM] at hp
          omega
        · rw [if_neg h404]
          by_cases hok : r.isOk = false
          · rw [if_pos hok]
            refine ⟨rfl, ?_⟩
            show s.fetches + 1 ≤ MAX_PAGES
            rw [hM]
            rw [hM] at hp
            omega
          · rw [if_neg hok]
            cases hbody : r.body with
            | obj bfs =>
              dsimp only
              cases hiter : iterElems (invoicesOf (Json.obj bfs)) with
              | none =>
                refine ⟨rfl, ?_⟩
                show (0 : Nat) ≤ MAX_PAGES
                rw [hM]
                omega
              | some elems =>
                dsimp only
                cases hnewi : newIdsOf elems s.seenIds with
                | none =>
                  refine ⟨rfl, ?_⟩
                  show (0 : Nat) ≤ MAX_PAGES
                  rw [hM]
                  omega
                | some newIds =>
                  dsimp only
                  by_cases hempty : newIds.isEmpty = true
                  · rw [if_pos hempty]
                    refine ⟨rfl, ?_⟩
                    show s.fetches + 1 ≤ MAX_PAGES
                    rw [hM]
                    rw [hM] at hp
                    omega
                  · rw [if_neg hempty]
                    cases hproc2 : processInvoices contact elems with
                    | none =>
                      refine ⟨rfl, ?_⟩
                      show (0 : Nat) ≤ MAX_PAGES
                      rw [hM]
                      omega
                    | some rk =>
                      obtain ⟨rows, kept⟩ := rk
                      dsimp only
                      rw [hbody] at hfn
                      rw [if_neg (by rw [hfn]; simp)]
                      exact ih _
                        (by show (extractNext (Json.obj bfs)).truthy = false
                            exact hfn)
                        (by show s.fetches + 1 + 1 = s.page + 1
                            omega)
                        (by show s.page + 1 ≤ MAX_PAGES + 1
                            rw [hM]
                            rw [hM] at hp
                            omega)
                        (by show MAX_PAGES + 2 ≤ s.page + 1 + f
                            rw [hM]
                            rw [hM] at h5
                            omega)
            | null =>
              refine ⟨rfl, ?_⟩
              show (0 : Nat) ≤ MAX_PAGES
              rw [hM]
              omega
            | bool b =>
              refine ⟨rfl, ?_⟩
              show (0 : Nat) ≤ MAX_PAGES
              rw [hM]
              omega
            | num q =>
              refine ⟨rfl, ?_⟩
              show (0 : Nat) ≤ MAX_PAGES
              rw [hM]
              omega
            | str st =>
              refine ⟨rfl, ?_⟩
              show (0 : Nat) ≤ MAX_PAGES
              rw [hM]
              omega
            | arr l =>
              refine ⟨rfl, ?_⟩
              show (0 : Nat) ≤ MAX_PAGES
              rw [hM]
              omega
    · rw [if_neg hp]
      refine ⟨rfl, ?_⟩
      show s.fetches ≤ MAX_PAGES
      rw [hM]
      rw [hM] at hp h4
      omega

/-- C3 amended: the 500-iteration cap bounds page-number-driven pagination:
for every API whose responses never carry a truthy next cursor, the loop
terminates within the cap, after at most 500 fetch iterations.  For
cursor-driven pagination the cap does not apply — page stays at 1 and a
fresh cursor per response drives the loop forever (see the
counterexample). -/
theorem c3_cap_bounds_page_mode (api : PageApi) (contact : Json → String)
    (hnext : ∀ req r, api req = .ok r → (extractNext r.body).truthy = false) :
    RunResult.settled (list_invoices api contact (MAX_PAGES + 1)) = true
    ∧ RunResult.fetchCount (list_invoices api contact (MAX_PAGES + 1))
        ≤ MAX_PAGES := by
  exact runLoopFrom_no_cursor_bound api contact hnext (MAX_PAGES + 1) initState
    (by decide) (by decide) (by decide) (by decide)

/-- Witness for C3 (amended) at a concrete page-number-driven API that
returns the same id-less record forever with no cursor: the run settles
within the cap with at most 500 fetches. -/
theorem c3_cap_bounds_page_mode_witness :
    RunResult.settled (list_invoices
      (fun _ => .ok ⟨200, .obj [("results", .arr [.obj [("name", .str "g")]])]⟩)
      (fun _ => "—") (MAX_PAGES + 1)) = true
    ∧ RunResult.fetchCount (list_invoices
      (fun _ => .ok ⟨200, .obj [("results", .arr [.obj [("name", .str "g")]])]⟩)
      (fun _ => "—") (MAX_PAGES + 1)) ≤ MAX_PAGES := by
  exact c3_cap_bounds_page_mode
    (fun _ => .ok ⟨200, .obj [("results", .arr [.obj [("name", .str "g")]])]⟩)
    (fun _ => "—")
    (fun req r hr => by
      have h3 : FetchResult.ok
        ⟨200, .obj [("results", .arr [.obj [("name", .str "g")]])]⟩
        = .ok r := hr
      injection h3 with h4
      rw [← h4]
      decide)
